import Mathlib

/-!
# Arnold SDK inline math: bounding boxes, min / max / clamp, lerp, dot and cross

A shallow embedding of the inline functions of `ai_math.h`, `ai_comparison.h`,
`ai_vector.h` and `ai_bbox.h`, and of the version macros of `ai_version.h`.  The component
type `float` is a parameter: the order-theoretic functions are stated over a linear order,
the arithmetic ones over a commutative ring or a field ("exact arithmetic"), and the two
infinities used by `AtBBox::init` are the top and bottom elements of the component order.
The version macros are natural numbers and strings.
-/

namespace Arnold

/-! ## ai_math.h -/

section Math

variable {T : Type} [LinearOrder T]

/-- Minimum of a and b, `ai_math.h:30`, CPU branch: `(a < b) ? a : b`. -/
def AiMin (a b : T) : T := if a < b then a else b

/-- Maximum of a and b, `ai_math.h:43`, CPU branch: `(a > b) ? a : b`. -/
def AiMax (a b : T) : T := if a > b then a else b

/-- Minimum of three values, `ai_math.h:56`: `AiMin(AiMin(a, b), c)`. -/
def AiMin3 (a b c : T) : T := AiMin (AiMin a b) c

/-- Maximum of three values, `ai_math.h:65`: `AiMax(AiMax(a, b), c)`. -/
def AiMax3 (a b c : T) : T := AiMax (AiMax a b) c

/-- Minimum of four values, `ai_math.h:74`: `AiMin(AiMin(a, b), AiMin(c, d))`. -/
def AiMin4 (a b c d : T) : T := AiMin (AiMin a b) (AiMin c d)

/-- Maximum of four values, `ai_math.h:83`: `AiMax(AiMax(a, b), AiMax(c, d))`. -/
def AiMax4 (a b c d : T) : T := AiMax (AiMax a b) (AiMax c d)

/-- Clamp the input to the specified range, `ai_math.h:101`: `AiMax(lo, AiMin(v, hi))`. -/
def AiClamp (v lo hi : T) : T := AiMax lo (AiMin v hi)

end Math

/-- Linear interpolation, `ai_math.h:119`: `((T2(1) - t) * a) + (b * t)`, a template over the
value type `T1` and the parameter type `T2`. -/
def AiLerp {T1 T2 : Type} [One T2] [Sub T2] [HMul T2 T1 T1] [HMul T1 T2 T1] [Add T1]
    (t : T2) (a b : T1) : T1 :=
  ((1 - t) * a) + (b * t)

/-! ## ai_comparison.h -/

/-- Result of a component-wise comparison, `ai_comparison.h:16`: `bool data[dim]`. -/
structure AtBooleanMask (dim : Nat) where
  data : Fin dim → Bool

namespace AtBooleanMask

variable {α : Type} [LinearOrder α] {dim : Nat}

/-- The loop `r.data[i] = x[i] < y[i]`. -/
def lt (x y : Fin dim → α) : AtBooleanMask dim := ⟨fun i => decide (x i < y i)⟩

/-- The loop `r.data[i] = x[i] <= y[i]`. -/
def le (x y : Fin dim → α) : AtBooleanMask dim := ⟨fun i => decide (x i ≤ y i)⟩

/-- The loop `r.data[i] = x[i] > y[i]`. -/
def gt (x y : Fin dim → α) : AtBooleanMask dim := ⟨fun i => decide (x i > y i)⟩

/-- The loop `r.data[i] = x[i] >= y[i]`. -/
def ge (x y : Fin dim → α) : AtBooleanMask dim := ⟨fun i => decide (x i ≥ y i)⟩

end AtBooleanMask

/-- The three-component overload, `ai_comparison.h:98`. -/
def AiAny (bm : AtBooleanMask 3) : Bool := bm.data 0 || bm.data 1 || bm.data 2

/-- The three-component overload, `ai_comparison.h:103`. -/
def AiAll (bm : AtBooleanMask 3) : Bool := bm.data 0 && bm.data 1 && bm.data 2

/-! ## ai_vector.h -/

/-- 3D point, `ai_vector.h:29`. -/
structure AtVector (α : Type) where
  x : α
  y : α
  z : α
deriving DecidableEq

/-- 2D point, `ai_vector.h:254`. -/
structure AtVector2 (α : Type) where
  x : α
  y : α
deriving DecidableEq

namespace AtVector

variable {α : Type}

/-- Component access `operator[]`, `ai_vector.h:184`: `*(&x + i)`. -/
def get (v : AtVector α) : Fin 3 → α
  | 0 => v.x
  | 1 => v.y
  | 2 => v.z

/-- Component-wise sum, `operator+(const AtVector&)`, `ai_vector.h:36`. -/
instance [Add α] : Add (AtVector α) := ⟨fun a p => ⟨a.x + p.x, a.y + p.y, a.z + p.z⟩⟩

/-- Component-wise difference, `operator-(const AtVector&)`, `ai_vector.h:66`. -/
instance [Sub α] : Sub (AtVector α) := ⟨fun a p => ⟨a.x - p.x, a.y - p.y, a.z - p.z⟩⟩

/-- Unary minus, `operator-()`, `ai_vector.h:96`. -/
instance [Neg α] : Neg (AtVector α) := ⟨fun a => ⟨-a.x, -a.y, -a.z⟩⟩

/-- Scaling `operator*(float)`, `ai_vector.h:116`. -/
instance [Mul α] : HMul (AtVector α) α (AtVector α) := ⟨fun a f => ⟨a.x * f, a.y * f, a.z * f⟩⟩

/-- The friend `operator*(float f, const AtVector& p)`, `ai_vector.h:194`: `p * f`. -/
instance [Mul α] : HMul α (AtVector α) (AtVector α) := ⟨fun f p => p * f⟩

/-- Mask `lhs < rhs`, `ai_vector.h:231`. -/
def lt [LinearOrder α] (lhs rhs : AtVector α) : AtBooleanMask 3 :=
  AtBooleanMask.lt lhs.get rhs.get

/-- Mask `lhs <= rhs`, `ai_vector.h:236`. -/
def le [LinearOrder α] (lhs rhs : AtVector α) : AtBooleanMask 3 :=
  AtBooleanMask.le lhs.get rhs.get

/-- Mask `lhs > rhs`, `ai_vector.h:241`. -/
def gt [LinearOrder α] (lhs rhs : AtVector α) : AtBooleanMask 3 :=
  AtBooleanMask.gt lhs.get rhs.get

/-- Mask `lhs >= rhs`, `ai_vector.h:246`. -/
def ge [LinearOrder α] (lhs rhs : AtVector α) : AtBooleanMask 3 :=
  AtBooleanMask.ge lhs.get rhs.get

end AtVector

namespace AtVector2

variable {α : Type}

/-- Component-wise sum, `ai_vector.h:263`. -/
instance [Add α] : Add (AtVector2 α) := ⟨fun a p => ⟨a.x + p.x, a.y + p.y⟩⟩

/-- Component-wise difference, `ai_vector.h:289`. -/
instance [Sub α] : Sub (AtVector2 α) := ⟨fun a p => ⟨a.x - p.x, a.y - p.y⟩⟩

/-- Scaling `operator*(float)`, `ai_vector.h:333`. -/
instance [Mul α] : HMul (AtVector2 α) α (AtVector2 α) := ⟨fun a f => ⟨a.x * f, a.y * f⟩⟩

/-- The friend `operator*(float f, const AtVector2& p)`, `ai_vector.h:404`: `p * f`. -/
instance [Mul α] : HMul α (AtVector2 α) (AtVector2 α) := ⟨fun f p => p * f⟩

end AtVector2

section VectorOps

variable {α : Type}

/-- 2D vector linear interpolation, `ai_vector.h:570`. -/
def AiV2Lerp [One α] [Sub α] [Add α] [Mul α] (t : α) (lo hi : AtVector2 α) : AtVector2 α :=
  AiLerp t lo hi

/-- Dot product, `ai_vector.h:626`. -/
def AiV3Dot [Add α] [Mul α] (a b : AtVector α) : α := a.x * b.x + a.y * b.y + a.z * b.z

/-- Cross product, `ai_vector.h:658`. -/
def AiV3Cross [Sub α] [Mul α] (a b : AtVector α) : AtVector α :=
  ⟨a.y * b.z - a.z * b.y, a.z * b.x - a.x * b.z, a.x * b.y - a.y * b.x⟩

/-- 3D vector linear interpolation, `ai_vector.h:678`. -/
def AiV3Lerp [One α] [Sub α] [Add α] [Mul α] (t : α) (lo hi : AtVector α) : AtVector α :=
  AiLerp t lo hi

/-- Minimum of two vectors, component-wise, `ai_vector.h:696`. -/
def AiV3Min [LinearOrder α] (a b : AtVector α) : AtVector α :=
  ⟨AiMin a.x b.x, AiMin a.y b.y, AiMin a.z b.z⟩

/-- Maximum of two vectors, component-wise, `ai_vector.h:706`. -/
def AiV3Max [LinearOrder α] (a b : AtVector α) : AtVector α :=
  ⟨AiMax a.x b.x, AiMax a.y b.y, AiMax a.z b.z⟩

end VectorOps

/-! ## ai_bbox.h -/

/-- 3D axis-aligned bounding box, `ai_bbox.h:32`. -/
structure AtBBox (α : Type) where
  min : AtVector α
  max : AtVector α
deriving DecidableEq

namespace AtBBox

variable {α : Type}

/-- The bbox of a triangle, `ai_bbox.h:45`: the assignments are kept in source order. -/
def ofTriangle [LinearOrder α] (p0 p1 p2 : AtVector α) : AtBBox α :=
  let b0 : AtBBox α := ⟨p0, p0⟩
  let b1 : AtBBox α := ⟨AiV3Min b0.min p1, b0.max⟩
  let b2 : AtBBox α := ⟨b1.min, AiV3Max b1.max p1⟩
  let b3 : AtBBox α := ⟨AiV3Min b2.min p2, b2.max⟩
  ⟨b3.min, AiV3Max b3.max p2⟩

/-- Initialize a bounding box to be empty, `ai_bbox.h:66`: `bound` is `+infinity`, the top of
the component order, and `-bound` its bottom. -/
def init [Top α] [Bot α] : AtBBox α :=
  let bound : α := ⊤
  let nbound : α := ⊥
  ⟨⟨bound, bound, bound⟩, ⟨nbound, nbound, nbound⟩⟩

/-- Expand a bounding box with a point, `ai_bbox.h:76`. -/
def expand [LinearOrder α] (b : AtBBox α) (v : AtVector α) : AtBBox α :=
  ⟨AiV3Min b.min v, AiV3Max b.max v⟩

/-- Check to see if the specified point is inside the bbox, `ai_bbox.h:85`. -/
def inside [LinearOrder α] (b : AtBBox α) (p : AtVector α) : Bool :=
  AiAll (p.ge b.min) && AiAll (p.le b.max)

/-- Returns whether or not the specified box is empty, `ai_bbox.h:101`. -/
def isEmpty [LinearOrder α] (b : AtBBox α) : Bool :=
  AiAny (b.min.gt b.max)

end AtBBox

/-- The bbox of two bboxes, `ai_bbox.h:140`. -/
def AiBBoxUnion {α : Type} [LinearOrder α] (b1 b2 : AtBBox α) : AtBBox α :=
  ⟨AiV3Min b1.min b2.min, AiV3Max b1.max b2.max⟩

/-- The intersection of two bboxes, `ai_bbox.h:149`. -/
def AiBBoxIntersection {α : Type} [LinearOrder α] (b1 b2 : AtBBox α) : AtBBox α :=
  ⟨AiV3Max b1.min b2.min, AiV3Min b1.max b2.max⟩

/-! ## The component order with the two infinities -/

/-- The component order in which a box can be initialised: the finite values `α` with
`+infinity` added on top and `-infinity` added at the bottom. -/
abbrev Ext (α : Type) := WithBot (WithTop α)

/-- A finite value seen as an extended one. -/
def Ext.ofFinite {α : Type} (x : α) : Ext α := WithBot.some (WithTop.some x)

/-- A point all of whose components are finite. -/
def AtVector.ofFinite {α : Type} (v : AtVector α) : AtVector (Ext α) :=
  ⟨Ext.ofFinite v.x, Ext.ofFinite v.y, Ext.ofFinite v.z⟩

/-! ## ai_vector.h: homogeneous points -/

/-- Division by a scalar, `AtVector::operator/(float)`, `ai_vector.h:146`. -/
instance AtVector.instHDivScalar {α : Type} [Div α] : HDiv (AtVector α) α (AtVector α) :=
  ⟨fun a f => ⟨a.x / f, a.y / f, a.z / f⟩⟩

/-- Homogeneous point, `ai_vector.h:464`. -/
structure AtHPoint (α : Type) where
  x : α
  y : α
  z : α
  w : α
deriving DecidableEq

namespace AtHPoint

variable {α : Type}

/-- The constructor `AtHPoint(const AtVector& v, float w)`, `ai_vector.h:470`. -/
def ofVector (v : AtVector α) (w : α) : AtHPoint α := ⟨v.x, v.y, v.z, w⟩

/-- Project a homogeneous vector back into 3d, `ai_vector.h:504`:
`w != 0 ? AtVector(x, y, z) / w : AtVector(0, 0, 0)`. -/
def project [Zero α] [Div α] [DecidableEq α] (p : AtHPoint α) : AtVector α :=
  if p.w ≠ 0 then (AtVector.mk p.x p.y p.z) / p.w else AtVector.mk 0 0 0

end AtHPoint

/-- Create a 4D point, `ai_vector.h:786`: `AtHPoint(v, 1)`. -/
def AiV4CreatePoint {α : Type} [One α] (v : AtVector α) : AtHPoint α := AtHPoint.ofVector v 1

/-- Stringification `ARNOLD_XSTR(s)`, `ai_version.h:15`, of a macro that expands to a decimal
integer literal. -/
def ARNOLD_XSTR (s : Nat) : String := toString s

/-- The constant of `ai_version.h:24`. -/
def AI_VERSION_ARCH_NUM : Nat := 7

/-- The constant of `ai_version.h:25`. -/
def AI_VERSION_MAJOR_NUM : Nat := 4

/-- The constant of `ai_version.h:26`. -/
def AI_VERSION_MINOR_NUM : Nat := 2

/-- The constant of `ai_version.h:27`. -/
def AI_VERSION_FIX : String := "1"

/-- The constant of `ai_version.h:29`. -/
def AI_VERSION_ARCH : String := ARNOLD_XSTR AI_VERSION_ARCH_NUM

/-- The constant of `ai_version.h:30`. -/
def AI_VERSION_MAJOR : String := ARNOLD_XSTR AI_VERSION_MAJOR_NUM

/-- The constant of `ai_version.h:31`. -/
def AI_VERSION_MINOR : String := ARNOLD_XSTR AI_VERSION_MINOR_NUM

/-- The expression of the macro `ARNOLD_VERSION_NUM`, `ai_version.h:38`, as a function of the
three version macros it reads: `(arch*10000)+(major*100)+minor`. -/
def versionNum (arch major minor : Nat) : Nat := (arch * 10000) + (major * 100) + minor

/-- The macro `ARNOLD_VERSION_NUM`, `ai_version.h:38`. -/
def ARNOLD_VERSION_NUM : Nat :=
  versionNum AI_VERSION_ARCH_NUM AI_VERSION_MAJOR_NUM AI_VERSION_MINOR_NUM

/-- Full Arnold version as string, `ai_version.h:58`: adjacent string literals concatenate. -/
def AI_VERSION : String :=
  AI_VERSION_ARCH ++ "." ++ AI_VERSION_MAJOR ++ "." ++ AI_VERSION_MINOR ++ "." ++ AI_VERSION_FIX

/-! ## Basic facts about the scalar functions -/

section Lemmas

variable {T : Type} [LinearOrder T]

theorem AiMin_eq_min (a b : T) : AiMin a b = min a b := by
  unfold AiMin
  rcases lt_trichotomy a b with h | h | h
  · rw [if_pos h, min_eq_left h.le]
  · subst h; simp
  · rw [if_neg (not_lt.mpr h.le), min_eq_right h.le]

theorem AiMax_eq_max (a b : T) : AiMax a b = max a b := by
  unfold AiMax
  rcases lt_trichotomy a b with h | h | h
  · rw [if_neg (not_lt.mpr h.le), max_eq_right h.le]
  · subst h; simp
  · rw [if_pos h, max_eq_left h.le]

end Lemmas

/-! ## Basic facts about the masks and the box predicates -/

section BoxLemmas

variable {α : Type} [LinearOrder α]

theorem AtBBox.inside_iff (b : AtBBox α) (p : AtVector α) :
    b.inside p = true ↔
      (b.min.x ≤ p.x ∧ b.min.y ≤ p.y ∧ b.min.z ≤ p.z) ∧
      (p.x ≤ b.max.x ∧ p.y ≤ b.max.y ∧ p.z ≤ b.max.z) := by
  simp [AtBBox.inside, AiAll, AtVector.ge, AtVector.le, AtBooleanMask.ge, AtBooleanMask.le,
    AtVector.get, and_assoc]

theorem AtBBox.isEmpty_iff (b : AtBBox α) :
    b.isEmpty = true ↔ (b.max.x < b.min.x ∨ b.max.y < b.min.y ∨ b.max.z < b.min.z) := by
  simp [AtBBox.isEmpty, AiAny, AtVector.gt, AtBooleanMask.gt, AtVector.get, or_assoc]

end BoxLemmas

/-! ## Claims about `ai_math.h` -/

section MathClaims

variable {T : Type} [LinearOrder T]

/-- C7: every `AiMin` overload (two, three and four arguments) returns one of its arguments
and that value is `<=` every argument; every `AiMax` overload returns one of its arguments
and that value is `>=` every argument. -/
theorem AiMin_AiMax_spec (a b c d : T) :
    ((AiMin a b = a ∨ AiMin a b = b) ∧ AiMin a b ≤ a ∧ AiMin a b ≤ b) ∧
    ((AiMin3 a b c = a ∨ AiMin3 a b c = b ∨ AiMin3 a b c = c) ∧
      AiMin3 a b c ≤ a ∧ AiMin3 a b c ≤ b ∧ AiMin3 a b c ≤ c) ∧
    ((AiMin4 a b c d = a ∨ AiMin4 a b c d = b ∨ AiMin4 a b c d = c ∨ AiMin4 a b c d = d) ∧
      AiMin4 a b c d ≤ a ∧ AiMin4 a b c d ≤ b ∧ AiMin4 a b c d ≤ c ∧ AiMin4 a b c d ≤ d) ∧
    ((AiMax a b = a ∨ AiMax a b = b) ∧ a ≤ AiMax a b ∧ b ≤ AiMax a b) ∧
    ((AiMax3 a b c = a ∨ AiMax3 a b c = b ∨ AiMax3 a b c = c) ∧
      a ≤ AiMax3 a b c ∧ b ≤ AiMax3 a b c ∧ c ≤ AiMax3 a b c) ∧
    ((AiMax4 a b c d = a ∨ AiMax4 a b c d = b ∨ AiMax4 a b c d = c ∨ AiMax4 a b c d = d) ∧
      a ≤ AiMax4 a b c d ∧ b ≤ AiMax4 a b c d ∧ c ≤ AiMax4 a b c d ∧ d ≤ AiMax4 a b c d) := by
  have m2 : ∀ u v : T, (AiMin u v = u ∨ AiMin u v = v) := fun u v => by
    rw [AiMin_eq_min]; exact min_choice u v
  have M2 : ∀ u v : T, (AiMax u v = u ∨ AiMax u v = v) := fun u v => by
    rw [AiMax_eq_max]; exact max_choice u v
  refine ⟨⟨m2 a b, ?_, ?_⟩, ⟨?_, ?_, ?_, ?_⟩, ⟨?_, ?_, ?_, ?_, ?_⟩,
    ⟨M2 a b, ?_, ?_⟩, ⟨?_, ?_, ?_, ?_⟩, ⟨?_, ?_, ?_, ?_, ?_⟩⟩
  · rw [AiMin_eq_min]; exact min_le_left a b
  · rw [AiMin_eq_min]; exact min_le_right a b
  · unfold AiMin3
    rcases m2 (AiMin a b) c with h | h
    · rcases m2 a b with h2 | h2
      · exact Or.inl (h.trans h2)
      · exact Or.inr (Or.inl (h.trans h2))
    · exact Or.inr (Or.inr h)
  · simp only [AiMin3, AiMin_eq_min]; exact (min_le_left _ _).trans (min_le_left _ _)
  · simp only [AiMin3, AiMin_eq_min]; exact (min_le_left _ _).trans (min_le_right _ _)
  · simp only [AiMin3, AiMin_eq_min]; exact min_le_right _ _
  · unfold AiMin4
    rcases m2 (AiMin a b) (AiMin c d) with h | h
    · rcases m2 a b with h2 | h2
      · exact Or.inl (h.trans h2)
      · exact Or.inr (Or.inl (h.trans h2))
    · rcases m2 c d with h2 | h2
      · exact Or.inr (Or.inr (Or.inl (h.trans h2)))
      · exact Or.inr (Or.inr (Or.inr (h.trans h2)))
  · simp only [AiMin4, AiMin_eq_min]; exact (min_le_left _ _).trans (min_le_left _ _)
  · simp only [AiMin4, AiMin_eq_min]; exact (min_le_left _ _).trans (min_le_right _ _)
  · simp only [AiMin4, AiMin_eq_min]; exact (min_le_right _ _).trans (min_le_left _ _)
  · simp only [AiMin4, AiMin_eq_min]; exact (min_le_right _ _).trans (min_le_right _ _)
  · rw [AiMax_eq_max]; exact le_max_left a b
  · rw [AiMax_eq_max]; exact le_max_right a b
  · unfold AiMax3
    rcases M2 (AiMax a b) c with h | h
    · rcases M2 a b with h2 | h2
      · exact Or.inl (h.trans h2)
      · exact Or.inr (Or.inl (h.trans h2))
    · exact Or.inr (Or.inr h)
  · simp only [AiMax3, AiMax_eq_max]; exact (le_max_left _ _).trans (le_max_left _ _)
  · simp only [AiMax3, AiMax_eq_max]; exact (le_max_right _ _).trans (le_max_left _ _)
  · simp only [AiMax3, AiMax_eq_max]; exact le_max_right _ _
  · unfold AiMax4
    rcases M2 (AiMax a b) (AiMax c d) with h | h
    · rcases M2 a b with h2 | h2
      · exact Or.inl (h.trans h2)
      · exact Or.inr (Or.inl (h.trans h2))
    · rcases M2 c d with h2 | h2
      · exact Or.inr (Or.inr (Or.inl (h.trans h2)))
      · exact Or.inr (Or.inr (Or.inr (h.trans h2)))
  · simp only [AiMax4, AiMax_eq_max]; exact (le_max_left _ _).trans (le_max_left _ _)
  · simp only [AiMax4, AiMax_eq_max]; exact (le_max_right _ _).trans (le_max_left _ _)
  · simp only [AiMax4, AiMax_eq_max]; exact (le_max_left _ _).trans (le_max_right _ _)
  · simp only [AiMax4, AiMax_eq_max]; exact (le_max_right _ _).trans (le_max_right _ _)

/-- C6: for `lo <= hi`, `AiClamp(v, lo, hi)` lies in `[lo, hi]`, equals `v` when
`lo <= v <= hi`, equals `lo` when `v < lo`, equals `hi` when `v > hi`, and clamping a
clamped value changes nothing. -/
theorem AiClamp_spec (v lo hi : T) (h : lo ≤ hi) :
    (lo ≤ AiClamp v lo hi ∧ AiClamp v lo hi ≤ hi) ∧
    (lo ≤ v → v ≤ hi → AiClamp v lo hi = v) ∧
    (v < lo → AiClamp v lo hi = lo) ∧
    (hi < v → AiClamp v lo hi = hi) ∧
    AiClamp (AiClamp v lo hi) lo hi = AiClamp v lo hi := by
  have inRange : ∀ w : T, lo ≤ w → w ≤ hi → AiClamp w lo hi = w := fun w h1 h2 => by
    simp only [AiClamp, AiMin_eq_min, AiMax_eq_max]
    rw [min_eq_left h2, max_eq_right h1]
  have bounds : lo ≤ AiClamp v lo hi ∧ AiClamp v lo hi ≤ hi := by
    simp only [AiClamp, AiMin_eq_min, AiMax_eq_max]
    exact ⟨le_max_left _ _, max_le h (min_le_right _ _)⟩
  refine ⟨bounds, inRange v, ?_, ?_, inRange _ bounds.1 bounds.2⟩
  · intro hv
    simp only [AiClamp, AiMin_eq_min, AiMax_eq_max]
    exact max_eq_left ((min_le_left _ _).trans hv.le)
  · intro hv
    simp only [AiClamp, AiMin_eq_min, AiMax_eq_max]
    rw [min_eq_right hv.le, max_eq_right h]

/-- Witness for C6 on the integers with the range `[0, 3]`: `5` clamps to `3`, `-2` to `0`,
and `1` is left alone. -/
theorem AiClamp_spec_witness :
    (0 : Int) ≤ 3 ∧ AiClamp (5 : Int) 0 3 = 3 ∧ AiClamp (-2 : Int) 0 3 = 0 ∧
      AiClamp (1 : Int) 0 3 = 1 :=
  ⟨by decide,
   (AiClamp_spec (5 : Int) 0 3 (by decide)).2.2.2.1 (by decide),
   (AiClamp_spec (-2 : Int) 0 3 (by decide)).2.2.1 (by decide),
   (AiClamp_spec (1 : Int) 0 3 (by decide)).2.1 (by decide) (by decide)⟩

end MathClaims

/-! ## Claims about `ai_bbox.h` -/

section BoxClaims

variable {α : Type} [LinearOrder α]

/-- C1: a point is inside `AiBBoxIntersection(b1, b2)` exactly when it is inside `b1` and
inside `b2`. -/
theorem AiBBoxIntersection_inside (b1 b2 : AtBBox α) (p : AtVector α) :
    (AiBBoxIntersection b1 b2).inside p = true ↔ (b1.inside p = true ∧ b2.inside p = true) := by
  simp only [AtBBox.inside_iff, AiBBoxIntersection, AiV3Max, AiV3Min, AiMin_eq_min,
    AiMax_eq_max, max_le_iff, le_min_iff]
  tauto

end BoxClaims

section InitClaim

variable {α : Type} [LinearOrder α]

theorem Ext.ofFinite_lt_top (x : α) : Ext.ofFinite x < (⊤ : Ext α) :=
  WithBot.coe_lt_coe.mpr (WithTop.coe_lt_top x)

theorem Ext.bot_lt_ofFinite (x : α) : (⊥ : Ext α) < Ext.ofFinite x :=
  WithBot.bot_lt_coe _

/-- C4: after `init()` the box is empty and no finite point is inside it, and `init()`
followed by `expand(v)` for a finite point `v` is the box with `min = max = v`; the bound
`+infinity` is the top and `-infinity` the bottom of the component order. -/
theorem AtBBox_init_spec :
    (AtBBox.init : AtBBox (Ext α)).isEmpty = true ∧
    (∀ p : AtVector α, (AtBBox.init : AtBBox (Ext α)).inside p.ofFinite = false) ∧
    (∀ v : AtVector α,
      (AtBBox.init : AtBBox (Ext α)).expand v.ofFinite = ⟨v.ofFinite, v.ofFinite⟩) := by
  refine ⟨?_, ?_, ?_⟩
  · rw [AtBBox.isEmpty_iff]
    exact Or.inl (WithBot.bot_lt_coe _)
  · intro p
    rw [← Bool.not_eq_true, AtBBox.inside_iff]
    intro h
    exact absurd h.1.1 (not_le.mpr (Ext.ofFinite_lt_top p.x))
  · intro v
    simp only [AtBBox.expand, AtBBox.init, AiV3Min, AiV3Max, AiMin, AiMax, AtVector.ofFinite]
    rw [if_neg (not_lt.mpr (Ext.ofFinite_lt_top v.x).le),
      if_neg (not_lt.mpr (Ext.ofFinite_lt_top v.y).le),
      if_neg (not_lt.mpr (Ext.ofFinite_lt_top v.z).le),
      if_neg (not_lt.mpr (Ext.bot_lt_ofFinite v.x).le),
      if_neg (not_lt.mpr (Ext.bot_lt_ofFinite v.y).le),
      if_neg (not_lt.mpr (Ext.bot_lt_ofFinite v.z).le)]

end InitClaim

/-! ## Claims about interpolation, dot and cross product -/

section VectorLemmas

variable {α : Type}

theorem AtVector.add_def [Add α] (a p : AtVector α) :
    a + p = ⟨a.x + p.x, a.y + p.y, a.z + p.z⟩ := rfl

theorem AtVector.sub_def [Sub α] (a p : AtVector α) :
    a - p = ⟨a.x - p.x, a.y - p.y, a.z - p.z⟩ := rfl

theorem AtVector.neg_def [Neg α] (a : AtVector α) : -a = ⟨-a.x, -a.y, -a.z⟩ := rfl

theorem AtVector.mul_scalar_def [Mul α] (a : AtVector α) (f : α) :
    a * f = ⟨a.x * f, a.y * f, a.z * f⟩ := rfl

theorem AtVector.scalar_mul_def [Mul α] (f : α) (p : AtVector α) :
    f * p = ⟨p.x * f, p.y * f, p.z * f⟩ := rfl

theorem AtVector2.add2_def [Add α] (a p : AtVector2 α) : a + p = ⟨a.x + p.x, a.y + p.y⟩ := rfl

theorem AtVector2.sub2_def [Sub α] (a p : AtVector2 α) : a - p = ⟨a.x - p.x, a.y - p.y⟩ := rfl

theorem AtVector2.mul_scalar2_def [Mul α] (a : AtVector2 α) (f : α) :
    a * f = ⟨a.x * f, a.y * f⟩ := rfl

theorem AtVector2.scalar_mul2_def [Mul α] (f : α) (p : AtVector2 α) :
    f * p = ⟨p.x * f, p.y * f⟩ := rfl

end VectorLemmas

section RingClaims

variable {α : Type} [CommRing α]

/-- C8: over exact arithmetic `AiLerp(0, a, b) = a`, `AiLerp(1, a, b) = b` and
`AiLerp(t, a, b) = a + t * (b - a)`, for scalars and, through `AiV2Lerp` and `AiV3Lerp`,
for 2D and 3D vectors. -/
theorem AiLerp_spec (t : α) :
    (∀ a b : α, AiLerp (0 : α) a b = a ∧ AiLerp (1 : α) a b = b ∧
      AiLerp t a b = a + t * (b - a)) ∧
    (∀ lo hi : AtVector2 α, AiV2Lerp 0 lo hi = lo ∧ AiV2Lerp 1 lo hi = hi ∧
      AiV2Lerp t lo hi = lo + t * (hi - lo)) ∧
    (∀ lo hi : AtVector α, AiV3Lerp 0 lo hi = lo ∧ AiV3Lerp 1 lo hi = hi ∧
      AiV3Lerp t lo hi = lo + t * (hi - lo)) := by
  refine ⟨fun a b => ⟨?_, ?_, ?_⟩, fun lo hi => ⟨?_, ?_, ?_⟩, fun lo hi => ⟨?_, ?_, ?_⟩⟩
  · simp [AiLerp]
  · simp [AiLerp]
  · simp only [AiLerp]; ring
  · simp [AiV2Lerp, AiLerp, AtVector2.add2_def, AtVector2.mul_scalar2_def,
      AtVector2.scalar_mul2_def]
  · simp [AiV2Lerp, AiLerp, AtVector2.add2_def, AtVector2.mul_scalar2_def,
      AtVector2.scalar_mul2_def]
  · simp only [AiV2Lerp, AiLerp, AtVector2.add2_def, AtVector2.sub2_def,
      AtVector2.mul_scalar2_def, AtVector2.scalar_mul2_def]
    congr 1 <;> ring
  · simp [AiV3Lerp, AiLerp, AtVector.add_def, AtVector.mul_scalar_def,
      AtVector.scalar_mul_def]
  · simp [AiV3Lerp, AiLerp, AtVector.add_def, AtVector.mul_scalar_def,
      AtVector.scalar_mul_def]
  · simp only [AiV3Lerp, AiLerp, AtVector.add_def, AtVector.sub_def,
      AtVector.mul_scalar_def, AtVector.scalar_mul_def]
    congr 1 <;> ring

/-- C10: over exact arithmetic `AiV3Cross(a, b)` is the cross product `a x b`: its three
components are those of the cross product of the component vectors of `a` and `b`; hence
`AiV3Cross(a, b) = -AiV3Cross(b, a)`, `AiV3Cross(a, a)` is the zero vector, and
`AiV3Cross(a, b)` is orthogonal to `a` and to `b`. -/
theorem AiV3Cross_spec (a b : AtVector α) :
    AiV3Cross a b =
      ⟨crossProduct a.get b.get 0, crossProduct a.get b.get 1, crossProduct a.get b.get 2⟩ ∧
    (AiV3Cross a b).get = crossProduct a.get b.get ∧
    AiV3Cross a b = -AiV3Cross b a ∧
    AiV3Cross a a = ⟨0, 0, 0⟩ ∧
    AiV3Dot a (AiV3Cross a b) = 0 ∧
    AiV3Dot b (AiV3Cross a b) = 0 := by
  refine ⟨?_, ?_, ?_, ?_, ?_, ?_⟩
  · simp [AiV3Cross, cross_apply, AtVector.get]
  · funext i
    fin_cases i <;> simp [AiV3Cross, cross_apply, AtVector.get]
  · simp only [AiV3Cross, AtVector.neg_def]
    congr 1 <;> ring
  · simp only [AiV3Cross]
    congr 1 <;> ring
  · simp only [AiV3Dot, AiV3Cross]; ring
  · simp only [AiV3Dot, AiV3Cross]; ring

end RingClaims

section OrderedRingClaims

variable {α : Type} [LinearOrderedCommRing α]

/-- C9: over exact arithmetic the dot product is symmetric, additive in its first argument,
homogeneous in its first argument, and `AiV3Dot(a, a) >= 0` with equality only for the zero
vector. -/
theorem AiV3Dot_spec (a b c : AtVector α) (k : α) :
    AiV3Dot a b = AiV3Dot b a ∧
    AiV3Dot (a + b) c = AiV3Dot a c + AiV3Dot b c ∧
    AiV3Dot (a * k) b = k * AiV3Dot a b ∧
    0 ≤ AiV3Dot a a ∧
    (AiV3Dot a a = 0 ↔ a = ⟨0, 0, 0⟩) := by
  have hx := mul_self_nonneg a.x
  have hy := mul_self_nonneg a.y
  have hz := mul_self_nonneg a.z
  refine ⟨?_, ?_, ?_, ?_, ?_, ?_⟩
  · simp only [AiV3Dot]; ring
  · simp only [AiV3Dot, AtVector.add_def]; ring
  · simp only [AiV3Dot, AtVector.mul_scalar_def]; ring
  · simp only [AiV3Dot]; linarith
  · intro h
    simp only [AiV3Dot] at h
    have ex : a.x * a.x = 0 := by linarith
    have ey : a.y * a.y = 0 := by linarith
    have ez : a.z * a.z = 0 := by linarith
    cases a with
    | mk x y z =>
      simp only [mul_self_eq_zero] at ex ey ez
      rw [ex, ey, ez]
  · intro h
    rw [h]
    simp [AiV3Dot]

end OrderedRingClaims

/-! ## Evaluations on concrete inputs -/

theorem AiClamp_eval : AiClamp (5 : Int) 0 3 = 3 ∧ AiClamp (-2 : Int) 0 3 = 0 := by decide

theorem AiMin_AiMax_eval :
    AiMin3 (4 : Int) 2 9 = 2 ∧ AiMax4 (4 : Int) 2 9 7 = 9 ∧ AiMin (3 : Int) 3 = 3 := by decide

theorem AiBBoxUnion_eval :
    AiBBoxUnion (⟨⟨0, 0, 0⟩, ⟨1, 1, 1⟩⟩ : AtBBox Int) ⟨⟨2, 2, 2⟩, ⟨3, 3, 3⟩⟩ =
      ⟨⟨0, 0, 0⟩, ⟨3, 3, 3⟩⟩ := by decide

theorem AiBBoxIntersection_eval :
    AiBBoxIntersection (⟨⟨0, 0, 0⟩, ⟨2, 2, 2⟩⟩ : AtBBox Int) ⟨⟨1, 1, 1⟩, ⟨3, 3, 3⟩⟩ =
      ⟨⟨1, 1, 1⟩, ⟨2, 2, 2⟩⟩ ∧
    (AiBBoxIntersection (⟨⟨0, 0, 0⟩, ⟨1, 1, 1⟩⟩ : AtBBox Int) ⟨⟨2, 2, 2⟩, ⟨3, 3, 3⟩⟩).isEmpty =
      true := by decide

theorem AtBBox_init_eval :
    (AtBBox.init : AtBBox (Ext Int)).isEmpty = true ∧
    (AtBBox.init : AtBBox (Ext Int)).inside (AtVector.ofFinite ⟨0, 0, 0⟩) = false ∧
    ((AtBBox.init : AtBBox (Ext Int)).expand (AtVector.ofFinite ⟨1, -2, 3⟩)).inside
      (AtVector.ofFinite ⟨1, -2, 3⟩) = true := by decide

theorem AtBBox_ofTriangle_eval :
    AtBBox.ofTriangle (⟨0, 5, 2⟩ : AtVector Int) ⟨3, 1, 2⟩ ⟨-1, 4, 7⟩ =
      ⟨⟨-1, 1, 2⟩, ⟨3, 5, 7⟩⟩ := by decide

theorem AiV3Lerp_eval :
    AiV3Lerp (0 : Int) ⟨1, 2, 3⟩ ⟨4, 5, 6⟩ = ⟨1, 2, 3⟩ ∧
    AiV3Lerp (1 : Int) ⟨1, 2, 3⟩ ⟨4, 5, 6⟩ = ⟨4, 5, 6⟩ ∧
    AiV3Lerp (2 : Int) ⟨1, 2, 3⟩ ⟨4, 5, 6⟩ = ⟨7, 8, 9⟩ := by decide

theorem AiV3Cross_eval :
    AiV3Cross (⟨1, 0, 0⟩ : AtVector Int) ⟨0, 1, 0⟩ = ⟨0, 0, 1⟩ ∧
    AiV3Dot (⟨1, 2, 3⟩ : AtVector Int) ⟨4, 5, 6⟩ = 32 := by decide

/-! ## Claims about homogeneous points -/

section ProjectClaim

variable {α : Type} [Field α] [DecidableEq α]

omit [DecidableEq α] in
theorem AtVector.div_scalar_def (a : AtVector α) (f : α) :
    a / f = ⟨a.x / f, a.y / f, a.z / f⟩ := rfl

end ProjectClaim

theorem AtHPoint_project_eval :
    (AtHPoint.mk (2 : Rat) 4 6 2).project = ⟨1, 2, 3⟩ ∧
    (AtHPoint.mk (2 : Rat) 4 6 0).project = ⟨0, 0, 0⟩ ∧
    (AiV4CreatePoint (⟨3, 4, 5⟩ : AtVector Rat)).project = ⟨3, 4, 5⟩ := by
  refine ⟨?_, ?_, ?_⟩
  · simp only [AtHPoint.project, AtVector.div_scalar_def]
    norm_num
  · simp [AtHPoint.project]
  · simp [AiV4CreatePoint, AtHPoint.ofVector, AtHPoint.project, AtVector.div_scalar_def]

/-! ## Claims about `ai_version.h` -/

/-- C12: `ARNOLD_VERSION_NUM` is `AI_VERSION_ARCH_NUM*10000 + AI_VERSION_MAJOR_NUM*100 +
AI_VERSION_MINOR_NUM = 70402`; the string `AI_VERSION` is `7.4.2.1`, whose first three
fields are the decimal forms of the same three numbers; for triples with major and minor
below 100 the encoding compares exactly as the triples do lexicographically (so it is
strictly monotone); hence `ARNOLD_VERSION_NUM >= 60002`, the encoding of `(6, 0, 2)`. -/
theorem ARNOLD_VERSION_NUM_spec :
    ARNOLD_VERSION_NUM =
      AI_VERSION_ARCH_NUM * 10000 + AI_VERSION_MAJOR_NUM * 100 + AI_VERSION_MINOR_NUM ∧
    ARNOLD_VERSION_NUM = 70402 ∧
    AI_VERSION = "7.4.2.1" ∧
    AI_VERSION = toString AI_VERSION_ARCH_NUM ++ "." ++ toString AI_VERSION_MAJOR_NUM ++ "." ++
      toString AI_VERSION_MINOR_NUM ++ "." ++ AI_VERSION_FIX ∧
    (∀ a1 b1 c1 a2 b2 c2 : Nat, b1 < 100 → c1 < 100 → b2 < 100 → c2 < 100 →
      ((a1 < a2 ∨ (a1 = a2 ∧ (b1 < b2 ∨ (b1 = b2 ∧ c1 < c2)))) ↔
        versionNum a1 b1 c1 < versionNum a2 b2 c2)) ∧
    versionNum 6 0 2 = 60002 ∧
    ARNOLD_VERSION_NUM ≥ 60002 := by
  refine ⟨rfl, by decide, by decide, rfl, ?_, rfl, by decide⟩
  intro a1 b1 c1 a2 b2 c2 hb1 hc1 hb2 hc2
  unfold versionNum
  omega

theorem versionNum_eval :
    versionNum 6 0 2 < versionNum 7 4 2 ∧ versionNum 7 4 2 < versionNum 7 4 3 ∧
    versionNum 7 4 99 < versionNum 7 5 0 ∧ versionNum 7 99 99 < versionNum 8 0 0 := by decide

/-- Within the stated range the encoding needs no more than 31 bits, so evaluating the macro
in `int` arithmetic gives the same number. -/
theorem versionNum_lt_two_pow_31 (a b c : Nat) (ha : a ≤ 214747) (hb : b < 100) (hc : c < 100) :
    versionNum a b c < 2 ^ 31 := by
  unfold versionNum
  omega

end Arnold
